import Mathlib

/-!
Verification model of the precise_float crate (src/lib.rs): the bounds model,
the representation selector and its inverse, `most_precise_for_same_space`,
and the copy/fixup protocol of `UniFloat` (the `NAN` constant, the
`assert_copy_fixed` / `assert_copy_not_fixed` checks, `copied`, and both
`shl_assign` forms). The embedding targets a 64-bit platform, the build with
all representations enabled, with the debug guard field modelled and the
debug-only assertions controlled by an explicit `dbg` flag. Machine pointers
are modelled symbolically: a limb pointer is either the crate-level dummy
limb pointer or the address of some instance's own limb array.
-/

/-- Bits per GMP limb word: `gmp::NUMB_BITS` on a 64-bit platform. -/
def NUMB_BITS : Nat := 64

/-- `isize::MIN` on a 64-bit platform. -/
def isizeMin : Int := -(2 ^ 63)

/-- `isize::MAX` on a 64-bit platform. -/
def isizeMax : Int := 2 ^ 63 - 1

/-- `MpfrBounds`: precision in bits plus the number of 64-bit limb parts. -/
structure MpfrBounds where
  precision_bits : Nat
  limb_parts : Nat
deriving DecidableEq, Repr

/-- `MpfrBounds::for_precision_binary`: keeps `precision_bits` and computes
`limb_parts = (precision_bits - 1) / gmp::NUMB_BITS + 1` (source uses `usize`
arithmetic; callers pass `precision_bits >= 1`, MPFR's minimum precision). -/
def MpfrBounds.for_precision_binary (precision_bits : Nat) : MpfrBounds :=
  { precision_bits := precision_bits,
    limb_parts := (precision_bits - 1) / NUMB_BITS + 1 }

/-- `UniFloatChoice`: the closed set of representation choices. -/
inductive UniFloatChoice where
  | F32
  | F64
  | TwoFloat
  | Mpfr (bounds : MpfrBounds)
deriving DecidableEq, Repr

/-- `UniFloatBounds` (the `BASE` const generic is carried by which function a
value is fed to, not by a field, exactly as in the source). -/
structure UniFloatBounds where
  precision : Nat
  min_exponent : Int
  max_exponent : Int
deriving DecidableEq, Repr

/-- `UniFloatBounds::covers`: `self.precision >= other.precision &&
self.min_exponent <= other.min_exponent && self.max_exponent >= other.max_exponent`. -/
def UniFloatBounds.covers (self other : UniFloatBounds) : Bool :=
  decide (self.precision ≥ other.precision) &&
  decide (self.min_exponent ≤ other.min_exponent) &&
  decide (self.max_exponent ≥ other.max_exponent)

/-- `F32_BOUNDS_BINARY`: `f32::MANTISSA_DIGITS = 24`, `f32::MIN_EXP = -125`,
`f32::MAX_EXP = 128` (Rust's exponent convention). -/
def F32_BOUNDS_BINARY : UniFloatBounds :=
  { precision := 24, min_exponent := -125, max_exponent := 128 }

/-- `F64_BOUNDS_BINARY`: `f64::MANTISSA_DIGITS = 53`, `f64::MIN_EXP = -1021`,
`f64::MAX_EXP = 1024`. -/
def F64_BOUNDS_BINARY : UniFloatBounds :=
  { precision := 53, min_exponent := -1021, max_exponent := 1024 }

/-- `TWOFLOAT_BOUNDS_BINARY`: `2 * f64::MANTISSA_DIGITS = 106`, with `f64`'s
exponent range. -/
def TWOFLOAT_BOUNDS_BINARY : UniFloatBounds :=
  { precision := 2 * 53, min_exponent := -1021, max_exponent := 1024 }

/-- `UniFloatBoundsToChoice::to_choice` for the `BINARY` base: first of
`F32`, `F64`, `TwoFloat` whose bounds cover the request, else `Mpfr` sized by
`for_precision_binary` of the requested precision. -/
def toChoiceBinary (b : UniFloatBounds) : UniFloatChoice :=
  if F32_BOUNDS_BINARY.covers b then .F32
  else if F64_BOUNDS_BINARY.covers b then .F64
  else if TWOFLOAT_BOUNDS_BINARY.covers b then .TwoFloat
  else .Mpfr (MpfrBounds.for_precision_binary b.precision)

/-- `UniFloatBoundsToChoice::to_choice` for the `DECIMAL` base: the source
body is an unconditional abort; `none` models that abort, and no `Choice` is
ever produced. -/
def toChoiceDecimal (_b : UniFloatBounds) : Option UniFloatChoice := none

/-- `UniFloatChoiceToBounds::to_bounds` for the `BINARY` base: the fixed
constants for the three fixed representations; for `Mpfr`, the stored
`precision_bits` with the full `isize` exponent range. -/
def toBoundsBinary (c : UniFloatChoice) : UniFloatBounds :=
  match c with
  | .F32 => F32_BOUNDS_BINARY
  | .F64 => F64_BOUNDS_BINARY
  | .TwoFloat => TWOFLOAT_BOUNDS_BINARY
  | .Mpfr mb =>
      { precision := mb.precision_bits, min_exponent := isizeMin,
        max_exponent := isizeMax }

/-- `UniFloatChoice::most_precise_for_same_space`: identity on the three
fixed representations; for `Mpfr`, `for_precision_binary` of
`limb_parts * gmp::NUMB_BITS`. -/
def UniFloatChoice.most_precise_for_same_space (c : UniFloatChoice) : UniFloatChoice :=
  match c with
  | .Mpfr mb => .Mpfr (MpfrBounds.for_precision_binary (mb.limb_parts * NUMB_BITS))
  | other => other

/-- A pointer stored in an MPFR descriptor's `d` field: either the
crate-level `DUMMY_MPFR_LIMB_PTR`, or the address of the inline limb array
of the instance located at `addr`. -/
inductive LimbPtr where
  | dummy
  | limbsOf (addr : Nat)
deriving DecidableEq, Repr

/-- One `mpfr::mpfr_t` descriptor: precision, sign, exponent, limb pointer. -/
structure MpfrFixed where
  prec : Int
  sign : Int
  exp : Int
  d : LimbPtr
deriving DecidableEq, Repr

instance : Inhabited MpfrFixed := ⟨⟨1, 1, 0, .dummy⟩⟩

/-- A scalar payload value; only the `NAN` constant is distinguished, no
arithmetic on these is modelled. -/
inductive FloatVal where
  | nan
  | finite (bits : Nat)
deriving DecidableEq, Repr

/-- `f32_parts_length`. -/
def f32_parts_length : UniFloatChoice → Nat
  | .F32 => 1
  | _ => 0

/-- `f64_parts_length`. -/
def f64_parts_length : UniFloatChoice → Nat
  | .F64 => 1
  | _ => 0

/-- `twofloat_parts_length`. -/
def twofloat_parts_length : UniFloatChoice → Nat
  | .TwoFloat => 1
  | _ => 0

/-- `mpfr_limb_parts_length`. -/
def mpfr_limb_parts_length : UniFloatChoice → Nat
  | .Mpfr mb => mb.limb_parts
  | _ => 0

/-- `mpfr_fixed_parts_length`. -/
def mpfr_fixed_parts_length : UniFloatChoice → Nat
  | .Mpfr _ => 1
  | _ => 0

/-- Whether a choice is the `Mpfr` variant (the `if let UniFloatChoice::Mpfr
{ .. } = C` tests in the source). -/
def isMpfr : UniFloatChoice → Bool
  | .Mpfr _ => true
  | _ => false

/-- A `UniFloat<C>` instance living at address `addr`: its per-branch field
arrays and the `cfg(debug_assertions)` guard `unifloat_self` (`none` models
the null pointer). -/
structure UniFloatInst where
  addr : Nat
  f32s : List FloatVal
  f64s : List FloatVal
  twofloats : List FloatVal
  mpfrLimbs : List Nat
  mpfrFixeds : List MpfrFixed
  unifloat_self : Option Nat
deriving DecidableEq, Repr

/-- `UniFloat::mpfr_limps_ptr`: the address of this instance's own inline
limb array. -/
def UniFloatInst.mpfr_limps_ptr (s : UniFloatInst) : LimbPtr := .limbsOf s.addr

/-- `INITIAL_MPFR_EXP = 1 - mpfr::exp_t::max_value()` (`exp_t` is `i64`). -/
def INITIAL_MPFR_EXP : Int := 1 - (2 ^ 63 - 1)

/-- `UniFloat::<C>::NAN` placed at address `a`: NaN scalar arrays, an
uninitialized limb array (arbitrary contents `uninitLimbs`), descriptors
`{ prec: 1, sign: 1, exp: INITIAL_MPFR_EXP, d: DUMMY_MPFR_LIMB_PTR }`, and a
null `unifloat_self` guard. -/
def UniFloat_NAN (c : UniFloatChoice) (a : Nat) (uninitLimbs : List Nat) : UniFloatInst :=
  { addr := a,
    f32s := List.replicate (f32_parts_length c) .nan,
    f64s := List.replicate (f64_parts_length c) .nan,
    twofloats := List.replicate (twofloat_parts_length c) .nan,
    mpfrLimbs := uninitLimbs,
    mpfrFixeds := List.replicate (mpfr_fixed_parts_length c) ⟨1, 1, INITIAL_MPFR_EXP, .dummy⟩,
    unifloat_self := none }

/-- `Default::default()` for `UniFloat<C>`: returns `Self::NAN`. -/
def UniFloat_default (c : UniFloatChoice) (a : Nat) (uninitLimbs : List Nat) : UniFloatInst :=
  UniFloat_NAN c a uninitLimbs

/-- `UniFloat::assert_copy_fixed`: under `debug_assertions` (`dbg`), the
guard must equal the instance's own address; and (always, in the full build)
for `Mpfr` the descriptor pointer must equal the own limb array's address.
`true` means the checks pass, `false` means the program aborts. -/
def assert_copy_fixed (dbg : Bool) (c : UniFloatChoice) (s : UniFloatInst) : Bool :=
  (!dbg || decide (s.unifloat_self = some s.addr)) &&
  (!(isMpfr c) || decide (s.mpfrFixeds.headI.d = s.mpfr_limps_ptr))

/-- `UniFloat::assert_copy_not_fixed`: the negated checks, in the same
build-mode structure as `assert_copy_fixed`. -/
def assert_copy_not_fixed (dbg : Bool) (c : UniFloatChoice) (s : UniFloatInst) : Bool :=
  (!dbg || decide (s.unifloat_self ≠ some s.addr)) &&
  (!(isMpfr c) || decide (s.mpfrFixeds.headI.d ≠ s.mpfr_limps_ptr))

/-- `UniFloat::copied`: asserts `assert_copy_not_fixed` (abort = `none`),
then for `Mpfr` rewrites the descriptor pointer to the own limb array, then
under `debug_assertions` records the own address in the guard. -/
def copied (dbg : Bool) (c : UniFloatChoice) (s : UniFloatInst) : Option UniFloatInst :=
  if assert_copy_not_fixed dbg c s then
    let s1 :=
      if isMpfr c then
        { s with mpfrFixeds := s.mpfrFixeds.set 0 { s.mpfrFixeds.headI with d := s.mpfr_limps_ptr } }
      else s
    let s2 := if dbg then { s1 with unifloat_self := some s1.addr } else s1
    some s2
  else none

/-- `ShlAssign::shl_assign` (by value): `*self = rhs` (a byte copy into
`self`'s storage, so the address stays `self`'s) followed by `self.copied()`;
no check on `rhs` itself. -/
def shl_assign_val (dbg : Bool) (c : UniFloatChoice) (self rhs : UniFloatInst) :
    Option UniFloatInst :=
  copied dbg c { rhs with addr := self.addr }

/-- `ShlAssign::<&Self>::shl_assign` (by reference): first
`rhs.assert_copy_fixed()`, then `*self = *rhs` and `self.copied()`. -/
def shl_assign_ref (dbg : Bool) (c : UniFloatChoice) (self rhs : UniFloatInst) :
    Option UniFloatInst :=
  if assert_copy_fixed dbg c rhs then copied dbg c { rhs with addr := self.addr }
  else none

/-- C1: for every Binary bounds `b` with positive precision and `isize`-valued
exponent limits, the choice picked by `to_choice` covers `b`: the choice's
Binary bounds have at least `b`'s precision, a `min_exponent` at most `b`'s,
and a `max_exponent` at least `b`'s. -/
theorem to_choice_binary_covers (b : UniFloatBounds) (hp : 0 < b.precision)
    (hmin : isizeMin ≤ b.min_exponent) (hmax : b.max_exponent ≤ isizeMax) :
    b.precision ≤ (toBoundsBinary (toChoiceBinary b)).precision ∧
    (toBoundsBinary (toChoiceBinary b)).min_exponent ≤ b.min_exponent ∧
    b.max_exponent ≤ (toBoundsBinary (toChoiceBinary b)).max_exponent := by
  unfold toChoiceBinary
  split_ifs with h1 h2 h3 <;>
    simp_all [UniFloatBounds.covers, toBoundsBinary, F32_BOUNDS_BINARY,
      F64_BOUNDS_BINARY, TWOFLOAT_BOUNDS_BINARY, MpfrBounds.for_precision_binary,
      isizeMin, isizeMax]

/-- C1 witness: the coverage property evaluated at the concrete request
`(precision 500, exponents [-10, 10])`. -/
theorem to_choice_binary_covers_witness :
    (500 : Nat) ≤ (toBoundsBinary (toChoiceBinary ⟨500, -10, 10⟩)).precision ∧
    (toBoundsBinary (toChoiceBinary ⟨500, -10, 10⟩)).min_exponent ≤ -10 ∧
    (10 : Int) ≤ (toBoundsBinary (toChoiceBinary ⟨500, -10, 10⟩)).max_exponent :=
  to_choice_binary_covers ⟨500, -10, 10⟩ (by decide) (by decide) (by decide)

/-- C3 counterexample: `to_choice` on the Binary bounds
`(precision 24, exponents [-126, 127])` does not return `F32` — the code's
`F32` bounds have `min_exponent = -125` (Rust's convention), which does not
contain `-126`, so selection falls through to `F64`. -/
theorem toChoice_24_m126_127_not_F32 :
    toChoiceBinary ⟨24, -126, 127⟩ ≠ UniFloatChoice.F32 ∧
    toChoiceBinary ⟨24, -126, 127⟩ = UniFloatChoice.F64 := by
  decide

/-- C3 (amended): `select` on Binary bounds `(24, [-126, 127])` returns the
`F64` choice, because the code's `F32` bounds are `(24, [-125, 128])` in
Rust's exponent convention; the `F32` choice is returned once the requested
range fits, e.g. for `(24, [-125, 128])`. -/
theorem toChoice_24_m126_127_is_F64 :
    toChoiceBinary ⟨24, -126, 127⟩ = UniFloatChoice.F64 ∧
    toChoiceBinary ⟨24, -125, 128⟩ = UniFloatChoice.F32 := by
  decide

/-- C4: for each fixed representation `R` in `{F32, F64, TwoFloat}`,
`select (bounds_for R Binary) = R` — the selector never over-selects a
costlier representation for a fixed representation's own bounds. -/
theorem toChoice_toBounds_fixed_roundtrip :
    toChoiceBinary (toBoundsBinary .F32) = UniFloatChoice.F32 ∧
    toChoiceBinary (toBoundsBinary .F64) = UniFloatChoice.F64 ∧
    toChoiceBinary (toBoundsBinary .TwoFloat) = UniFloatChoice.TwoFloat := by
  decide

/-- C5: forward selection in the `DECIMAL` base aborts on every input
(the source body is an unconditional abort); it never returns a `Choice`. -/
theorem toChoiceDecimal_always_aborts (b : UniFloatBounds) :
    toChoiceDecimal b = none := rfl

/-- C8: `most_precise_for_same_space` never loses precision — for an `Mpfr`
choice with `limb_parts = ceil(precision_bits / NUMB_BITS)` it returns the
`Mpfr` choice with `precision_bits = limb_parts * NUMB_BITS` over the same
`limb_parts`; it is the identity on the three fixed representations; and
concretely `Mpfr (100 bits, 2 limbs)` maps to `Mpfr (128 bits, 2 limbs)`. -/
theorem most_precise_same_space_spec (mb : MpfrBounds) (hp : 0 < mb.precision_bits)
    (hl : mb.limb_parts = (mb.precision_bits + NUMB_BITS - 1) / NUMB_BITS) :
    ((toBoundsBinary (.Mpfr mb)).precision ≤
       (toBoundsBinary (UniFloatChoice.most_precise_for_same_space (.Mpfr mb))).precision ∧
     UniFloatChoice.most_precise_for_same_space (.Mpfr mb) =
       .Mpfr ⟨mb.limb_parts * NUMB_BITS, mb.limb_parts⟩) ∧
    (UniFloatChoice.most_precise_for_same_space .F32 = .F32 ∧
     UniFloatChoice.most_precise_for_same_space .F64 = .F64 ∧
     UniFloatChoice.most_precise_for_same_space .TwoFloat = .TwoFloat) ∧
    UniFloatChoice.most_precise_for_same_space (.Mpfr ⟨100, 2⟩) = .Mpfr ⟨128, 2⟩ := by
  have hn : NUMB_BITS = 64 := rfl
  rw [hn] at hl
  refine ⟨⟨?_, ?_⟩, ⟨rfl, rfl, rfl⟩, by decide⟩ <;>
    simp [UniFloatChoice.most_precise_for_same_space, MpfrBounds.for_precision_binary,
      toBoundsBinary, NUMB_BITS] <;>
    omega

/-- C8 witness: the `Mpfr` part of the statement evaluated at the concrete
choice `Mpfr (100 bits, 2 limbs)`. -/
theorem most_precise_same_space_spec_witness :
    ((toBoundsBinary (.Mpfr ⟨100, 2⟩)).precision ≤
       (toBoundsBinary (UniFloatChoice.most_precise_for_same_space (.Mpfr ⟨100, 2⟩))).precision ∧
     UniFloatChoice.most_precise_for_same_space (.Mpfr ⟨100, 2⟩) =
       .Mpfr ⟨(⟨100, 2⟩ : MpfrBounds).limb_parts * NUMB_BITS, (⟨100, 2⟩ : MpfrBounds).limb_parts⟩) ∧
    (UniFloatChoice.most_precise_for_same_space .F32 = .F32 ∧
     UniFloatChoice.most_precise_for_same_space .F64 = .F64 ∧
     UniFloatChoice.most_precise_for_same_space .TwoFloat = .TwoFloat) ∧
    UniFloatChoice.most_precise_for_same_space (.Mpfr ⟨100, 2⟩) = .Mpfr ⟨128, 2⟩ :=
  most_precise_same_space_spec ⟨100, 2⟩ (by decide) (by decide)

/-- C10: `most_precise_for_same_space` is idempotent on every choice (for
`Mpfr` choices, with at least one limb part). -/
theorem most_precise_same_space_idempotent (c : UniFloatChoice)
    (h : ∀ mb, c = .Mpfr mb → 1 ≤ mb.limb_parts) :
    UniFloatChoice.most_precise_for_same_space
        (UniFloatChoice.most_precise_for_same_space c) =
      UniFloatChoice.most_precise_for_same_space c := by
  cases c with
  | Mpfr mb =>
      have hl := h mb rfl
      simp [UniFloatChoice.most_precise_for_same_space,
        MpfrBounds.for_precision_binary, NUMB_BITS]
      omega
  | F32 => rfl
  | F64 => rfl
  | TwoFloat => rfl

/-- C10 witness: idempotence evaluated at the concrete choice
`Mpfr (100 bits, 2 limbs)`. -/
theorem most_precise_same_space_idempotent_witness :
    UniFloatChoice.most_precise_for_same_space
        (UniFloatChoice.most_precise_for_same_space (.Mpfr ⟨100, 2⟩)) =
      UniFloatChoice.most_precise_for_same_space (.Mpfr ⟨100, 2⟩) :=
  most_precise_same_space_idempotent (.Mpfr ⟨100, 2⟩)
    (by intro mb hmb; injection hmb with h2; rw [← h2]; decide)

/-- C2 counterexample: the canonical `NAN` value of an `Mpfr`-backed
`UniFloat`, freshly placed at address 0, fails `assert_copy_fixed` in both
the debug and the release build: its `unifloat_self` guard is null and its
descriptor pointer is the dummy limb pointer, not its own limb array. -/
theorem nan_not_fixed_counterexample :
    assert_copy_fixed true (.Mpfr ⟨1, 1⟩) (UniFloat_NAN (.Mpfr ⟨1, 1⟩) 0 [0]) = false ∧
    assert_copy_fixed false (.Mpfr ⟨1, 1⟩) (UniFloat_NAN (.Mpfr ⟨1, 1⟩) 0 [0]) = false ∧
    (UniFloat_NAN (.Mpfr ⟨1, 1⟩) 0 [0]).mpfrFixeds.headI.d ≠
      (UniFloat_NAN (.Mpfr ⟨1, 1⟩) 0 [0]).mpfr_limps_ptr := by
  decide

/-- C2 (amended): a freshly constructed instance (`Default::default()` is
exactly the canonical `NAN` constant), for every choice, address and build
mode, is in Pending state: `assert_copy_not_fixed` passes on it, and the
debug-mode `assert_copy_fixed` fails; for an `Mpfr` choice the descriptor
pointer is the dummy limb pointer, not the instance's own limb array. -/
theorem default_is_pending_nan (dbg : Bool) (c : UniFloatChoice) (a : Nat)
    (u : List Nat) :
    UniFloat_default c a u = UniFloat_NAN c a u ∧
    assert_copy_not_fixed dbg c (UniFloat_NAN c a u) = true ∧
    assert_copy_fixed true c (UniFloat_NAN c a u) = false := by
  refine ⟨rfl, ?_, ?_⟩
  · cases c <;>
      simp [assert_copy_not_fixed, UniFloat_NAN, isMpfr, mpfr_fixed_parts_length,
        UniFloatInst.mpfr_limps_ptr, List.headI]
  · simp [assert_copy_fixed, UniFloat_NAN]

/-- C6 counterexample: a Fixed, non-corrupted `Mpfr` instance (descriptor
pointer equal to its own limb array, guard equal to its own address) makes
`copied` abort — in the debug build and in the release build alike — even
though the claim says `copied` never aborts on a non-corrupted instance. -/
theorem copied_aborts_on_fixed_counterexample :
    assert_copy_fixed true (.Mpfr ⟨64, 1⟩)
        (⟨0, [], [], [], [7], [⟨64, 1, 0, .limbsOf 0⟩], some 0⟩ : UniFloatInst) = true ∧
    copied true (.Mpfr ⟨64, 1⟩)
        (⟨0, [], [], [], [7], [⟨64, 1, 0, .limbsOf 0⟩], some 0⟩ : UniFloatInst) = none ∧
    copied false (.Mpfr ⟨64, 1⟩)
        (⟨0, [], [], [], [7], [⟨64, 1, 0, .limbsOf 0⟩], some 0⟩ : UniFloatInst) = none := by
  decide

/-- C6 (amended): `copied` aborts exactly when `assert_copy_not_fixed` fails
(in particular on every Fixed instance); when that check passes it succeeds,
keeps the address, and for a non-`Mpfr` choice leaves every payload field
unchanged (only the debug guard is written). -/
theorem copied_spec (dbg : Bool) (c : UniFloatChoice) (s : UniFloatInst) :
    (copied dbg c s = none ↔ assert_copy_not_fixed dbg c s = false) ∧
    (assert_copy_not_fixed dbg c s = true →
      ∃ s', copied dbg c s = some s' ∧ s'.addr = s.addr ∧
        (isMpfr c = false →
          s'.f32s = s.f32s ∧ s'.f64s = s.f64s ∧ s'.twofloats = s.twofloats ∧
          s'.mpfrLimbs = s.mpfrLimbs ∧ s'.mpfrFixeds = s.mpfrFixeds)) := by
  constructor
  · unfold copied
    split_ifs with h <;> simp [h]
  · intro h
    unfold copied
    rw [if_pos h]
    cases hc : isMpfr c <;> cases dbg <;> simp [hc]

/-- C6 witness: the amended behaviour evaluated on the Pending instance
`NAN` of the `F32` choice at address 0, in the debug build. -/
theorem copied_spec_witness :
    assert_copy_not_fixed true .F32 (UniFloat_NAN .F32 0 []) = true ∧
    (∃ s', copied true .F32 (UniFloat_NAN .F32 0 []) = some s' ∧
      s'.addr = (UniFloat_NAN .F32 0 []).addr ∧
      (isMpfr .F32 = false →
        s'.f32s = (UniFloat_NAN .F32 0 []).f32s ∧
        s'.f64s = (UniFloat_NAN .F32 0 []).f64s ∧
        s'.twofloats = (UniFloat_NAN .F32 0 []).twofloats ∧
        s'.mpfrLimbs = (UniFloat_NAN .F32 0 []).mpfrLimbs ∧
        s'.mpfrFixeds = (UniFloat_NAN .F32 0 []).mpfrFixeds)) :=
  ⟨by decide, (copied_spec true .F32 (UniFloat_NAN .F32 0 [])).2 (by decide)⟩

/-- Helper: `copied`, when its not-fixed assertion passes and the descriptor
array has the layout length of the choice, succeeds and yields a Fixed
instance at the same address. -/
theorem copied_fixes (dbg : Bool) (c : UniFloatChoice) (s : UniFloatInst)
    (hlen : s.mpfrFixeds.length = mpfr_fixed_parts_length c)
    (h : assert_copy_not_fixed dbg c s = true) :
    ∃ s', copied dbg c s = some s' ∧ s'.addr = s.addr ∧
      assert_copy_fixed dbg c s' = true := by
  unfold copied
  rw [if_pos h]
  cases hc : isMpfr c with
  | false =>
      cases dbg <;>
        simp [assert_copy_fixed, hc, UniFloatInst.mpfr_limps_ptr]
  | true =>
      have h1 : mpfr_fixed_parts_length c = 1 := by
        cases c <;> simp_all [isMpfr, mpfr_fixed_parts_length]
      rw [h1] at hlen
      obtain ⟨e, he⟩ := List.length_eq_one.mp hlen
      cases dbg <;>
        simp [assert_copy_fixed, hc, UniFloatInst.mpfr_limps_ptr, he,
          List.set, List.headI]

/-- C7: adopting a Fixed source `y` into a distinct instance `x` (distinct
addresses; `y`'s descriptor array has the choice's layout length) succeeds in
both `shl_assign` forms and leaves `x` (same address) in Fixed state, so an
immediately following `assert_copy_fixed` payload-read check passes. -/
theorem shl_assign_adopt_fixed (dbg : Bool) (c : UniFloatChoice)
    (x y : UniFloatInst) (hne : x.addr ≠ y.addr)
    (hlen : y.mpfrFixeds.length = mpfr_fixed_parts_length c)
    (hy : assert_copy_fixed dbg c y = true) :
    (∃ x1, shl_assign_val dbg c x y = some x1 ∧ x1.addr = x.addr ∧
       assert_copy_fixed dbg c x1 = true) ∧
    (∃ x2, shl_assign_ref dbg c x y = some x2 ∧ x2.addr = x.addr ∧
       assert_copy_fixed dbg c x2 = true) := by
  have hne' : ¬ (y.addr = x.addr) := fun hh => hne hh.symm
  have hy' := hy
  simp only [assert_copy_fixed, Bool.and_eq_true, Bool.or_eq_true,
    Bool.not_eq_eq_eq_not, Bool.not_true, decide_eq_true_eq] at hy'
  have hnot : assert_copy_not_fixed dbg c { y with addr := x.addr } = true := by
    cases dbg <;> cases hc : isMpfr c <;>
      simp_all [assert_copy_not_fixed, UniFloatInst.mpfr_limps_ptr]
  obtain ⟨x1, h1, ha1, hf1⟩ :=
    copied_fixes dbg c { y with addr := x.addr } hlen hnot
  refine ⟨⟨x1, h1, ha1, hf1⟩, ⟨x1, ?_, ha1, hf1⟩⟩
  unfold shl_assign_ref
  rw [if_pos hy]
  exact h1

/-- C7 witness: the adopt property evaluated for the `Mpfr (64 bits, 1 limb)`
choice in the debug build, with `x` the fresh `NAN` at address 0 and `y` a
Fixed instance at address 1. -/
theorem shl_assign_adopt_fixed_witness :
    (∃ x1, shl_assign_val true (.Mpfr ⟨64, 1⟩) (UniFloat_NAN (.Mpfr ⟨64, 1⟩) 0 [0])
        (⟨1, [], [], [], [5], [⟨64, 1, 0, .limbsOf 1⟩], some 1⟩ : UniFloatInst) = some x1 ∧
       x1.addr = (UniFloat_NAN (.Mpfr ⟨64, 1⟩) 0 [0]).addr ∧
       assert_copy_fixed true (.Mpfr ⟨64, 1⟩) x1 = true) ∧
    (∃ x2, shl_assign_ref true (.Mpfr ⟨64, 1⟩) (UniFloat_NAN (.Mpfr ⟨64, 1⟩) 0 [0])
        (⟨1, [], [], [], [5], [⟨64, 1, 0, .limbsOf 1⟩], some 1⟩ : UniFloatInst) = some x2 ∧
       x2.addr = (UniFloat_NAN (.Mpfr ⟨64, 1⟩) 0 [0]).addr ∧
       assert_copy_fixed true (.Mpfr ⟨64, 1⟩) x2 = true) :=
  shl_assign_adopt_fixed true (.Mpfr ⟨64, 1⟩)
    (UniFloat_NAN (.Mpfr ⟨64, 1⟩) 0 [0])
    (⟨1, [], [], [], [5], [⟨64, 1, 0, .limbsOf 1⟩], some 1⟩ : UniFloatInst)
    (by decide) (by decide) (by decide)
